import Mathlib

/-!
# Verification of `aosp/cow_converter.cc`

A shallow embedding of the `cow_converter` command-line tool
(`src/aosp/cow_converter.cc`).  The tool reads an OTA payload, parses its
manifest, and for each selected partition drives an external COW writer,
reporting realized versus estimated COW sizes.

The embedding translates the two functions of the source file,
`ProcessPartition` and `main`, into pure Lean functions.  External
collaborators (the file system, `CreateCowWriter`, `CowDryRun`,
`PayloadMetadata`, `utils::FileSize`) are modelled by an explicit oracle
(`PartitionEnv`, `World`) recording the success or failure of each call,
and the observable behaviour (files opened, log lines emitted, writer
constructed) is recorded as a list of `Event`s returned alongside the
exit code.

Machine-integer conversions of the source are made explicit:
`size_t`/`uint64` arithmetic is `% 2 ^ 64`, the `static_cast<uint32_t>`
on `op_count_max` is `% 2 ^ 32`, and the `int64 - uint64` subtraction in
the percent-smaller log line is uint64 wraparound (`wrapU64`).  The
`100.0f` float expression is modelled by its exact rational value
(`percentSmaller`); single-precision rounding preserves the sign and
zeroness of the value, which is all the statements below rely on.
-/

namespace CowConverter

/-- Proto message `DynamicPartitionMetadata` (fields used by the tool):
`vabc_compression_param` (string) and `cow_version` (uint32). -/
structure DynamicPartitionMetadata where
  vabc_compression_param : String
  cow_version : Nat
  deriving DecidableEq

/-- Proto message `PartitionInfo`: only the `size` field (uint64) is used. -/
structure PartitionInfo where
  size : Nat
  deriving DecidableEq

/-- Proto message `PartitionUpdate` (fields used by the tool). -/
structure PartitionUpdate where
  partition_name : String
  estimate_cow_size : Nat
  new_partition_info : PartitionInfo
  old_partition_info : PartitionInfo
  deriving DecidableEq

/-- Proto message `DeltaArchiveManifest` (fields used by the tool):
`block_size` (uint32), `dynamic_partition_metadata`, and the ordered
partition list. -/
structure DeltaArchiveManifest where
  block_size : Nat
  dynamic_partition_metadata : DynamicPartitionMetadata
  partitions : List PartitionUpdate
  deriving DecidableEq

/-- `android::snapshot::CowOptions` as populated by `ProcessPartition`. -/
structure CowOptions where
  block_size : Nat
  compression : String
  batch_write : Bool
  op_count_max : Nat
  deriving DecidableEq

/-- The three gflags of the tool: `FLAGS_partitions`,
`FLAGS_cow_version` (int32), `FLAGS_vabc_compression_param`. -/
structure Flags where
  partitions : String
  cow_version : Int
  vabc_compression_param : String
  deriving DecidableEq

/-- Linux `O_RDONLY`. -/
def O_RDONLY : Nat := 0

/-- Linux `O_RDWR`. -/
def O_RDWR : Nat := 2

/-- Linux `O_CREAT` (octal 0100). -/
def O_CREAT : Nat := 0o100

/-- POSIX `MAP_FAILED`, the value `(void*)-1` that `mmap` returns on
failure (it does not return a null pointer). -/
def MAP_FAILED : Int := -1

/-- Conversion of a signed 64-bit value to `uint64`, as performed by the
usual arithmetic conversions in `actual_cow_size - estimate_cow_size()`. -/
def wrapU64 (x : Int) : Nat := (x % (2 ^ 64 : Int)).toNat

/-- `static_cast<uint32_t>` on a non-negative 64-bit quantity. -/
def wrapU32 (n : Nat) : Nat := n % 2 ^ 32

/-- Exact rational value of the float expression
`(actual_cow_size - estimate) * 100.0f / actual_cow_size` of
`cow_converter.cc` lines 188-189 and 198-199.  The subtraction is
performed in uint64 (the int64 `actual_cow_size` is converted to uint64
and the difference wraps modulo `2 ^ 64`), after which the
multiplication and division are modelled exactly over ℚ. -/
def percentSmaller (estimate : Nat) (actual : Int) : ℚ :=
  ((wrapU64 (actual - (estimate : Int)) : ℚ) * 100) / (actual : ℚ)

/-- Observable actions of the tool: file-system calls, writer calls and
log lines.  `deleteFile` records removal of a file; no code path of
`cow_converter.cc` ever performs one, and the constructor exists so that
the absence of deletion is expressible as a trace property. -/
inductive Event where
  | openTarget (path : String) (oflags : Nat)
  | openOutput (path : String) (oflags : Nat) (mode : Nat)
  | logUserCowVersion (version : Nat)
  | createWriter (version : Nat) (options : CowOptions)
  | dryRun
  | finalizeCall
  | logPartitionName (name : String)
  | logStats (name : String) (estimate : Nat) (actual : Int) (percent : ℚ)
  | logTotal (estimateTotal : Nat) (actualTotal : Nat) (percent : ℚ)
  | deleteFile (path : String)
  deriving DecidableEq

/-- Success or failure of the external calls made while processing one
partition: `EintrSafeFileDescriptor::Open` on the target image, `open`
on the output COW file, `CreateCowWriter`, `CowDryRun`, and
`ICowWriter::Finalize`. -/
structure PartitionEnv where
  targetImgOpenOk : Bool
  outputOpenOk : Bool
  writerCreated : Bool
  dryRunOk : Bool
  finalizeOk : Bool
  deriving DecidableEq

/-- `ProcessPartition` of `cow_converter.cc` (lines 53-102), returning
its boolean result together with the trace of external calls and log
lines it performs.  Paths are built as `base::FilePath::Append` does for
a separator-free directory argument. -/
def ProcessPartition (flags : Flags) (image_dir : String)
    (manifest : DeltaArchiveManifest) (partition : PartitionUpdate)
    (env : PartitionEnv) : Bool × List Event :=
  let target_img := image_dir ++ "/" ++ partition.partition_name ++ ".img"
  let output_cow := image_dir ++ "/" ++ partition.partition_name ++ ".cow"
  let ev1 := Event.openTarget target_img O_RDONLY
  if env.targetImgOpenOk = false then (false, [ev1]) else
  let ev2 := Event.openOutput output_cow (O_RDWR ||| O_CREAT) 0o744
  if env.outputOpenOk = false then (false, [ev1, ev2]) else
  let dap := manifest.dynamic_partition_metadata
  let options0 : CowOptions :=
    { block_size := manifest.block_size
      compression := dap.vabc_compression_param
      batch_write := true
      op_count_max := wrapU32 (partition.new_partition_info.size / manifest.block_size) }
  let options := if flags.vabc_compression_param ≠ "" then
      { options0 with compression := flags.vabc_compression_param }
    else options0
  let cow_version :=
    if 0 < flags.cow_version then flags.cow_version.toNat else dap.cow_version
  let verLog : List Event :=
    if 0 < flags.cow_version then [Event.logUserCowVersion cow_version] else []
  let ev3 := Event.createWriter cow_version options
  if env.writerCreated = false then (false, [ev1, ev2] ++ verLog ++ [ev3]) else
  if env.dryRunOk = false then (false, [ev1, ev2] ++ verLog ++ [ev3, Event.dryRun]) else
  if env.finalizeOk = false then
    (false, [ev1, ev2] ++ verLog ++ [ev3, Event.dryRun, Event.finalizeCall])
  else (true, [ev1, ev2] ++ verLog ++ [ev3, Event.dryRun, Event.finalizeCall])

/-- The inputs of one run of `main` that are decided outside the source
file: the argument count after gflags parsing, the results of `open`,
`utils::FileSize`, `mmap` (the returned pointer as an address:
`MAP_FAILED`, i.e. -1, on failure, and a non-null mapping address on
success), header and manifest parsing, the parsed manifest, the image
directory argument, the per-partition external-call outcomes (keyed by
partition name, which determines the paths involved), and
`utils::FileSize` on the produced `.cow` paths. -/
structure World where
  argc : Nat
  payloadFd : Int
  payloadSize : Int
  mmapAddr : Int
  headerParseOk : Bool
  manifestParseOk : Bool
  manifest : DeltaArchiveManifest
  imagesDir : String
  partEnv : String → PartitionEnv
  cowFileSize : String → Int

/-- Split a character list at every comma; `acc` holds the characters of
the current token in reverse. -/
def splitComma : List Char → List Char → List String
  | [], acc => [String.mk acc.reverse]
  | c :: cs, acc =>
    if c = ',' then String.mk acc.reverse :: splitComma cs []
    else splitComma cs (c :: acc)

/-- `android::base::Tokenize(s, ",")`: split on commas and drop empty
tokens. -/
def tokenize (s : String) : List String :=
  (splitComma s.toList []).filter (fun t => t ≠ "")

/-- The partition loop of `main` (lines 167-193 of `cow_converter.cc`)
followed by the aggregate log line (lines 195-200).  Arguments beyond
the world are the remaining partition list and the running
`estimated_total_cow_size` / `actual_total_cow_size` accumulators (both
`size_t`, hence `% 2 ^ 64`).  Returns the exit code and the trace. -/
def runPartitions (flags : Flags) (filter : List String) (w : World) :
    List PartitionUpdate → Nat → Nat → Int × List Event
  | [], estimated_total, actual_total =>
      (0, [Event.logTotal estimated_total actual_total
            (percentSmaller estimated_total (actual_total : Int))])
  | partition :: rest, estimated_total, actual_total =>
      if partition.estimate_cow_size = 0 then
        runPartitions flags filter w rest estimated_total actual_total
      else if filter ≠ [] ∧ partition.partition_name ∉ filter then
        runPartitions flags filter w rest estimated_total actual_total
      else
        let r := ProcessPartition flags w.imagesDir w.manifest partition
            (w.partEnv partition.partition_name)
        if r.1 = false then
          (6, Event.logPartitionName partition.partition_name :: r.2)
        else
          let actual_cow_size := w.cowFileSize
              (w.imagesDir ++ "/" ++ partition.partition_name ++ ".cow")
          let res := runPartitions flags filter w rest
              ((estimated_total + partition.estimate_cow_size) % 2 ^ 64)
              ((actual_total + wrapU64 actual_cow_size) % 2 ^ 64)
          (res.1,
            Event.logPartitionName partition.partition_name :: r.2
              ++ [Event.logStats partition.partition_name partition.estimate_cow_size
                    actual_cow_size
                    (percentSmaller partition.estimate_cow_size actual_cow_size)]
              ++ res.2)

/-- `main` of `cow_converter.cc` (lines 109-202): tokenize
`FLAGS_partitions`, check the argument count, open / size / mmap the
payload, parse header and manifest, then run the partition loop.  The
mmap check of line 149 is `payload == nullptr`, i.e. a comparison of
the returned address against 0 — not against `MAP_FAILED`, the value
`mmap` actually returns on failure. -/
def main (flags : Flags) (w : World) : Int × List Event :=
  let partitions := tokenize flags.partitions
  if w.argc ≠ 3 then (-1, [])
  else if w.payloadFd < 0 then (1, [])
  else if w.payloadSize ≤ 0 then (2, [])
  else if w.mmapAddr = 0 then (3, [])
  else if w.headerParseOk = false then (4, [])
  else if w.manifestParseOk = false then (5, [])
  else runPartitions flags partitions w w.manifest.partitions 0 0

/-- A partition survives both `continue` checks of the loop: nonzero
`estimate_cow_size` and, when the name set is non-empty, membership in
it. -/
def selected (filter : List String) (p : PartitionUpdate) : Prop :=
  p.estimate_cow_size ≠ 0 ∧ (filter = [] ∨ p.partition_name ∈ filter)

instance (filter : List String) (p : PartitionUpdate) :
    Decidable (selected filter p) :=
  inferInstanceAs (Decidable (_ ∧ (_ ∨ _)))

/-- The partition name carried by a per-partition `LOG(INFO)` name line
(line 175), if the event is one. -/
def nameOfEvent : Event → Option String
  | Event.logPartitionName n => some n
  | _ => none

/-- Names of the partitions whose per-partition `LOG(INFO)` name line
(line 175) appears in a trace, in trace order. -/
def processedNames (trace : List Event) : List String :=
  trace.filterMap nameOfEvent

/-- Events emitted inside `ProcessPartition` (as opposed to the loop's
own log lines). -/
def setupEvent : Event → Bool
  | Event.openTarget _ _ => true
  | Event.openOutput _ _ _ => true
  | Event.logUserCowVersion _ => true
  | Event.createWriter _ _ => true
  | Event.dryRun => true
  | Event.finalizeCall => true
  | _ => false

/-! ## Concrete fixtures used to instantiate the theorems below -/

/-- All three flags at their gflags defaults. -/
def flagsNone : Flags := { partitions := "", cow_version := 0, vabc_compression_param := "" }

/-- `--partitions=A`. -/
def flagsA : Flags := { partitions := "A", cow_version := 0, vabc_compression_param := "" }

/-- `--cow_version=3 --vabc_compression_param=zstd`. -/
def flagsV3 : Flags := { partitions := "", cow_version := 3, vabc_compression_param := "zstd" }

/-- Every external call during partition processing succeeds. -/
def envOk : PartitionEnv :=
  { targetImgOpenOk := true, outputOpenOk := true, writerCreated := true
    dryRunOk := true, finalizeOk := true }

/-- The target image is missing; everything else would succeed. -/
def envNoTarget : PartitionEnv := { envOk with targetImgOpenOk := false }

/-- Dynamic-partition metadata with compression `gz` and COW version 2. -/
def dpm0 : DynamicPartitionMetadata := { vabc_compression_param := "gz", cow_version := 2 }

/-- A one-block partition `A` whose COW size estimate is 2 bytes. -/
def partA : PartitionUpdate :=
  { partition_name := "A", estimate_cow_size := 2
    new_partition_info := ⟨4096⟩, old_partition_info := ⟨4096⟩ }

/-- Partition `A` with a zero COW size estimate. -/
def partZero : PartitionUpdate :=
  { partition_name := "A", estimate_cow_size := 0
    new_partition_info := ⟨4096⟩, old_partition_info := ⟨4096⟩ }

/-- A partition whose block count `2 ^ 44 / 4096 = 2 ^ 32` overflows the
`uint32` cast on `op_count_max`. -/
def partBig : PartitionUpdate :=
  { partition_name := "B", estimate_cow_size := 5
    new_partition_info := ⟨2 ^ 44⟩, old_partition_info := ⟨0⟩ }

/-- Manifest holding only `partA`. -/
def manifestA : DeltaArchiveManifest :=
  { block_size := 4096, dynamic_partition_metadata := dpm0, partitions := [partA] }

/-- Manifest holding only `partZero`. -/
def manifestZero : DeltaArchiveManifest :=
  { block_size := 4096, dynamic_partition_metadata := dpm0, partitions := [partZero] }

/-- Manifest holding only `partBig`. -/
def manifestBig : DeltaArchiveManifest :=
  { block_size := 4096, dynamic_partition_metadata := dpm0, partitions := [partBig] }

/-- A world in which every front-end phase and every external call
succeeds, the manifest is `manifestA`, and every produced `.cow` file
stats to 1 byte. -/
def worldA : World :=
  { argc := 3, payloadFd := 3, payloadSize := 100, mmapAddr := 4096
    headerParseOk := true, manifestParseOk := true, manifest := manifestA
    imagesDir := "d", partEnv := fun _ => envOk, cowFileSize := fun _ => 1 }

/-- `worldA` with the zero-estimate manifest. -/
def worldZero : World := { worldA with manifest := manifestZero }

/-- `worldA` except that `mmap` fails, returning `MAP_FAILED`, and the
subsequent header parse on the invalid mapping fails. -/
def worldMmapFail : World :=
  { worldA with mmapAddr := MAP_FAILED, headerParseOk := false }

/-- `worldA` except that opening the target image fails. -/
def worldNoTarget : World := { worldA with partEnv := fun _ => envNoTarget }

/-- `worldA` with only two CLI arguments. -/
def worldArgc2 : World := { worldA with argc := 2 }

/-- `worldA` except that opening the payload file fails. -/
def worldNoFd : World := { worldA with payloadFd := -1 }

/-- `worldA` except that the payload file is empty. -/
def worldEmpty : World := { worldA with payloadSize := 0 }

/-- `worldA` except that payload header parsing fails. -/
def worldNoHeader : World := { worldA with headerParseOk := false }

/-- `worldA` except that manifest parsing fails. -/
def worldNoManifest : World := { worldA with manifestParseOk := false }

/-! ## Helper lemmas -/

lemma runPartitions_nil (flags : Flags) (filter : List String) (w : World)
    (est act : Nat) :
    runPartitions flags filter w [] est act =
      (0, [Event.logTotal est act (percentSmaller est (act : Int))]) := rfl

lemma runPartitions_skip_zero (flags : Flags) (filter : List String) (w : World)
    (p : PartitionUpdate) (rest : List PartitionUpdate) (est act : Nat)
    (h : p.estimate_cow_size = 0) :
    runPartitions flags filter w (p :: rest) est act =
      runPartitions flags filter w rest est act := by
  simp only [runPartitions, if_pos h]

lemma runPartitions_skip_filtered (flags : Flags) (filter : List String) (w : World)
    (p : PartitionUpdate) (rest : List PartitionUpdate) (est act : Nat)
    (h1 : p.estimate_cow_size ≠ 0) (h2 : filter ≠ []) (h3 : p.partition_name ∉ filter) :
    runPartitions flags filter w (p :: rest) est act =
      runPartitions flags filter w rest est act := by
  simp only [runPartitions, if_neg h1, if_pos (And.intro h2 h3)]

lemma runPartitions_not_selected (flags : Flags) (filter : List String) (w : World)
    (p : PartitionUpdate) (rest : List PartitionUpdate) (est act : Nat)
    (h : ¬ selected filter p) :
    runPartitions flags filter w (p :: rest) est act =
      runPartitions flags filter w rest est act := by
  by_cases hz : p.estimate_cow_size = 0
  · exact runPartitions_skip_zero flags filter w p rest est act hz
  · rw [selected, not_and_or] at h
    rcases h with h | h
    · exact absurd hz (by simpa using h)
    · push_neg at h
      exact runPartitions_skip_filtered flags filter w p rest est act hz h.1 h.2

lemma not_skip_of_selected {filter : List String} {p : PartitionUpdate}
    (hsel : selected filter p) :
    ¬ (filter ≠ [] ∧ p.partition_name ∉ filter) := by
  rcases hsel.2 with h | h
  · exact fun hc => hc.1 h
  · exact fun hc => hc.2 h

lemma runPartitions_fail (flags : Flags) (filter : List String) (w : World)
    (p : PartitionUpdate) (rest : List PartitionUpdate) (est act : Nat)
    (hsel : selected filter p)
    (hfail : (ProcessPartition flags w.imagesDir w.manifest p
        (w.partEnv p.partition_name)).1 = false) :
    runPartitions flags filter w (p :: rest) est act =
      (6, Event.logPartitionName p.partition_name ::
        (ProcessPartition flags w.imagesDir w.manifest p
          (w.partEnv p.partition_name)).2) := by
  simp only [runPartitions, if_neg hsel.1, if_neg (not_skip_of_selected hsel), if_pos hfail]

lemma runPartitions_ok (flags : Flags) (filter : List String) (w : World)
    (p : PartitionUpdate) (rest : List PartitionUpdate) (est act : Nat)
    (hsel : selected filter p)
    (hok : (ProcessPartition flags w.imagesDir w.manifest p
        (w.partEnv p.partition_name)).1 = true) :
    runPartitions flags filter w (p :: rest) est act =
      ((runPartitions flags filter w rest
          ((est + p.estimate_cow_size) % 2 ^ 64)
          ((act + wrapU64 (w.cowFileSize
              (w.imagesDir ++ "/" ++ p.partition_name ++ ".cow"))) % 2 ^ 64)).1,
        Event.logPartitionName p.partition_name ::
          (ProcessPartition flags w.imagesDir w.manifest p
            (w.partEnv p.partition_name)).2
          ++ [Event.logStats p.partition_name p.estimate_cow_size
                (w.cowFileSize (w.imagesDir ++ "/" ++ p.partition_name ++ ".cow"))
                (percentSmaller p.estimate_cow_size
                  (w.cowFileSize (w.imagesDir ++ "/" ++ p.partition_name ++ ".cow")))]
          ++ (runPartitions flags filter w rest
              ((est + p.estimate_cow_size) % 2 ^ 64)
              ((act + wrapU64 (w.cowFileSize
                  (w.imagesDir ++ "/" ++ p.partition_name ++ ".cow"))) % 2 ^ 64)).2) := by
  have hne : ¬ (ProcessPartition flags w.imagesDir w.manifest p
      (w.partEnv p.partition_name)).1 = false := by simp [hok]
  simp only [runPartitions, if_neg hsel.1, if_neg (not_skip_of_selected hsel), if_neg hne]

lemma processPartition_setup (flags : Flags) (image_dir : String)
    (manifest : DeltaArchiveManifest) (p : PartitionUpdate) (env : PartitionEnv) :
    ∀ ev ∈ (ProcessPartition flags image_dir manifest p env).2, setupEvent ev = true := by
  obtain ⟨t, o, cw, dr, fz⟩ := env
  by_cases hv : 0 < flags.cow_version <;>
    cases t <;> cases o <;> cases cw <;> cases dr <;> cases fz <;>
    simp [ProcessPartition, hv, setupEvent]

lemma processedNames_processPartition (flags : Flags) (image_dir : String)
    (manifest : DeltaArchiveManifest) (p : PartitionUpdate) (env : PartitionEnv) :
    processedNames (ProcessPartition flags image_dir manifest p env).2 = [] := by
  rw [processedNames, List.filterMap_eq_nil_iff]
  intro ev hev
  have h := processPartition_setup flags image_dir manifest p env ev hev
  cases ev <;> simp_all [setupEvent, nameOfEvent]

lemma logTotal_not_mem_processPartition (flags : Flags) (image_dir : String)
    (manifest : DeltaArchiveManifest) (p : PartitionUpdate) (env : PartitionEnv)
    (e a : Nat) (q : ℚ) :
    Event.logTotal e a q ∉ (ProcessPartition flags image_dir manifest p env).2 := by
  intro hmem
  have h := processPartition_setup flags image_dir manifest p env _ hmem
  simp [setupEvent] at h

lemma deleteFile_not_mem_processPartition (flags : Flags) (image_dir : String)
    (manifest : DeltaArchiveManifest) (p : PartitionUpdate) (env : PartitionEnv)
    (path : String) :
    Event.deleteFile path ∉ (ProcessPartition flags image_dir manifest p env).2 := by
  intro hmem
  have h := processPartition_setup flags image_dir manifest p env _ hmem
  simp [setupEvent] at h

lemma runPartitions_code_cases (flags : Flags) (filter : List String) (w : World) :
    ∀ (l : List PartitionUpdate) (est act : Nat),
      (runPartitions flags filter w l est act).1 = 0 ∨
      (runPartitions flags filter w l est act).1 = 6 := by
  intro l
  induction l with
  | nil => intro est act; left; rfl
  | cons p rest ih =>
    intro est act
    by_cases hsel : selected filter p
    · by_cases hfail : (ProcessPartition flags w.imagesDir w.manifest p
          (w.partEnv p.partition_name)).1 = false
      · rw [runPartitions_fail flags filter w p rest est act hsel hfail]
        right; rfl
      · rw [runPartitions_ok flags filter w p rest est act hsel
          (by simpa using hfail)]
        exact ih _ _
    · rw [runPartitions_not_selected flags filter w p rest est act hsel]
      exact ih _ _

lemma runPartitions_logTotal_iff (flags : Flags) (filter : List String) (w : World) :
    ∀ (l : List PartitionUpdate) (est act : Nat),
      (runPartitions flags filter w l est act).1 = 0 ↔
      ∃ e a q, Event.logTotal e a q ∈ (runPartitions flags filter w l est act).2 := by
  intro l
  induction l with
  | nil =>
    intro est act
    constructor
    · intro _
      exact ⟨est, act, percentSmaller est (act : Int), by simp [runPartitions_nil]⟩
    · intro _; rfl
  | cons p rest ih =>
    intro est act
    by_cases hsel : selected filter p
    · by_cases hfail : (ProcessPartition flags w.imagesDir w.manifest p
          (w.partEnv p.partition_name)).1 = false
      · rw [runPartitions_fail flags filter w p rest est act hsel hfail]
        constructor
        · intro h; exact absurd h (by norm_num)
        · rintro ⟨e, a, q, hmem⟩
          rcases List.mem_cons.mp hmem with h | h
          · exact absurd h (by simp)
          · exact absurd h (logTotal_not_mem_processPartition flags w.imagesDir
              w.manifest p (w.partEnv p.partition_name) e a q)
      · rw [runPartitions_ok flags filter w p rest est act hsel (by simpa using hfail)]
        rw [ih]
        constructor
        · rintro ⟨e, a, q, hmem⟩
          exact ⟨e, a, q, List.mem_cons_of_mem _ (List.mem_append_right _ hmem)⟩
        · rintro ⟨e, a, q, hmem⟩
          refine ⟨e, a, q, ?_⟩
          rcases List.mem_cons.mp hmem with h | h
          · exact absurd h (by simp)
          · rcases List.mem_append.mp h with h' | h'
            · rcases List.mem_append.mp h' with h'' | h''
              · exact absurd h'' (logTotal_not_mem_processPartition flags w.imagesDir
                  w.manifest p (w.partEnv p.partition_name) e a q)
              · exact absurd h'' (by simp)
            · exact h'
    · rw [runPartitions_not_selected flags filter w p rest est act hsel]
      exact ih _ _

lemma runPartitions_allOk (flags : Flags) (filter : List String) (w : World) :
    ∀ (l : List PartitionUpdate),
      (∀ p ∈ l, selected filter p → (ProcessPartition flags w.imagesDir w.manifest p
        (w.partEnv p.partition_name)).1 = true) →
      ∀ (est act : Nat), (runPartitions flags filter w l est act).1 = 0 := by
  intro l
  induction l with
  | nil => intro _ est act; rfl
  | cons p rest ih =>
    intro h est act
    by_cases hsel : selected filter p
    · rw [runPartitions_ok flags filter w p rest est act hsel
        (h p (List.mem_cons_self p rest) hsel)]
      exact ih (fun q hq hs => h q (List.mem_cons_of_mem p hq) hs) _ _
    · rw [runPartitions_not_selected flags filter w p rest est act hsel]
      exact ih (fun q hq hs => h q (List.mem_cons_of_mem p hq) hs) _ _

lemma runPartitions_all_skipped (flags : Flags) (filter : List String) (w : World) :
    ∀ (l : List PartitionUpdate),
      (∀ p ∈ l, ¬ selected filter p) →
      ∀ (est act : Nat), runPartitions flags filter w l est act =
        (0, [Event.logTotal est act (percentSmaller est (act : Int))]) := by
  intro l
  induction l with
  | nil => intro _ est act; rfl
  | cons p rest ih =>
    intro h est act
    rw [runPartitions_not_selected flags filter w p rest est act
      (h p (List.mem_cons_self p rest))]
    exact ih (fun q hq => h q (List.mem_cons_of_mem p hq)) _ _

lemma runPartitions_no_deleteFile (flags : Flags) (filter : List String) (w : World) :
    ∀ (l : List PartitionUpdate) (est act : Nat) (path : String),
      Event.deleteFile path ∉ (runPartitions flags filter w l est act).2 := by
  intro l
  induction l with
  | nil =>
    intro est act path hmem
    rw [runPartitions_nil] at hmem
    simp at hmem
  | cons p rest ih =>
    intro est act path hmem
    by_cases hsel : selected filter p
    · by_cases hfail : (ProcessPartition flags w.imagesDir w.manifest p
          (w.partEnv p.partition_name)).1 = false
      · rw [runPartitions_fail flags filter w p rest est act hsel hfail] at hmem
        rcases List.mem_cons.mp hmem with h | h
        · exact absurd h (by simp)
        · exact deleteFile_not_mem_processPartition flags w.imagesDir w.manifest p
            (w.partEnv p.partition_name) path h
      · rw [runPartitions_ok flags filter w p rest est act hsel (by simpa using hfail)]
          at hmem
        rcases List.mem_cons.mp hmem with h | h
        · exact absurd h (by simp)
        · rcases List.mem_append.mp h with h' | h'
          · rcases List.mem_append.mp h' with h'' | h''
            · exact deleteFile_not_mem_processPartition flags w.imagesDir w.manifest p
                (w.partEnv p.partition_name) path h''
            · exact absurd h'' (by simp)
          · exact ih _ _ path h'
    · rw [runPartitions_not_selected flags filter w p rest est act hsel] at hmem
      exact ih _ _ path hmem

lemma processedNames_runPartitions (flags : Flags) (filter : List String) (w : World) :
    ∀ (l : List PartitionUpdate),
      (∀ p ∈ l, selected filter p → (ProcessPartition flags w.imagesDir w.manifest p
        (w.partEnv p.partition_name)).1 = true) →
      ∀ (est act : Nat),
        processedNames (runPartitions flags filter w l est act).2 =
          (l.filter (fun p => decide (selected filter p))).map
            (fun p => p.partition_name) := by
  intro l
  induction l with
  | nil => intro _ est act; simp [runPartitions_nil, processedNames, nameOfEvent]
  | cons p rest ih =>
    intro h est act
    by_cases hsel : selected filter p
    · rw [runPartitions_ok flags filter w p rest est act hsel
        (h p (List.mem_cons_self p rest) hsel)]
      have hPP : (ProcessPartition flags w.imagesDir w.manifest p
          (w.partEnv p.partition_name)).2.filterMap nameOfEvent = [] := by
        have hp := processedNames_processPartition flags w.imagesDir w.manifest p
          (w.partEnv p.partition_name)
        simpa [processedNames] using hp
      have hrest := ih (fun q hq hs => h q (List.mem_cons_of_mem p hq) hs)
        ((est + p.estimate_cow_size) % 2 ^ 64)
        ((act + wrapU64 (w.cowFileSize
            (w.imagesDir ++ "/" ++ p.partition_name ++ ".cow"))) % 2 ^ 64)
      simp only [processedNames] at hrest ⊢
      simp [List.filterMap_cons, List.filterMap_append, nameOfEvent, hPP,
        List.filter_cons, hsel]
      simpa using hrest
    · rw [runPartitions_not_selected flags filter w p rest est act hsel]
      have hrest := ih (fun q hq hs => h q (List.mem_cons_of_mem p hq) hs) est act
      simp [List.filter_cons, hsel, hrest]

lemma percentSmaller_nonneg (e : Nat) (a : Int) (ha : 0 < a) :
    0 ≤ percentSmaller e a := by
  unfold percentSmaller
  apply div_nonneg
  · positivity
  · exact_mod_cast ha.le

lemma percentSmaller_no_wrap (e : Nat) (a : Int) (he : e < 2 ^ 64)
    (hle : (e : Int) ≤ a) (ha : a < 2 ^ 64) :
    percentSmaller e a = (((a : ℚ) - (e : Nat)) * 100) / (a : ℚ) := by
  unfold percentSmaller wrapU64
  have h0 : (0 : Int) ≤ a - (e : Int) := by omega
  have h1 : a - (e : Int) < 2 ^ 64 := by omega
  rw [Int.emod_eq_of_lt h0 h1]
  have h2 : ((a - (e : Int)).toNat : ℚ) = (a : ℚ) - (e : Nat) := by
    have h3 := congrArg (fun z : Int => (z : ℚ)) (Int.toNat_of_nonneg h0)
    push_cast at h3 ⊢
    linarith [h3]
  rw [h2]

lemma main_unfold_ok (flags : Flags) (w : World)
    (h1 : w.argc = 3) (h2 : 0 ≤ w.payloadFd) (h3 : 0 < w.payloadSize)
    (h4 : w.mmapAddr ≠ 0) (h5 : w.headerParseOk = true) (h6 : w.manifestParseOk = true) :
    CowConverter.main flags w =
      runPartitions flags (tokenize flags.partitions) w w.manifest.partitions 0 0 := by
  simp only [main, if_neg (by simp [h1] : ¬ w.argc ≠ 3),
    if_neg (not_lt.mpr h2), if_neg (not_le.mpr h3),
    if_neg h4,
    if_neg (by simp [h5] : ¬ w.headerParseOk = false),
    if_neg (by simp [h6] : ¬ w.manifestParseOk = false)]

lemma main_no_deleteFile (flags : Flags) (w : World) (path : String) :
    Event.deleteFile path ∉ (CowConverter.main flags w).2 := by
  intro hmem
  simp only [main] at hmem
  split at hmem
  · simp at hmem
  split at hmem
  · simp at hmem
  split at hmem
  · simp at hmem
  split at hmem
  · simp at hmem
  split at hmem
  · simp at hmem
  split at hmem
  · simp at hmem
  exact runPartitions_no_deleteFile flags (tokenize flags.partitions) w
    w.manifest.partitions 0 0 path hmem

/-! ## Claim theorems -/

/-- C1 counterexample: the claim says the reported percent-smaller value
is negative exactly when the estimate exceeds the actual size.  In the
run `worldA` the partition `A` has estimate 2 and actual COW size 1, so
the estimate exceeds the actual, yet the value the tool logs —
`(1 - 2) * 100.0f / 1` with the subtraction performed in uint64 —
is not negative: the difference wraps to `2 ^ 64 - 1`. -/
theorem c1_percent_sign_counterexample :
    Event.logStats "A" 2 1 (percentSmaller 2 1) ∈ (CowConverter.main flagsNone worldA).2 ∧
    (1 : Int) < (2 : Int) ∧ ¬ percentSmaller 2 1 < 0 := by
  refine ⟨?_, by norm_num, ?_⟩
  · rw [main_unfold_ok flagsNone worldA rfl (by decide) (by decide) (by decide) rfl rfl]
    have ht : tokenize flagsNone.partitions = [] := by decide
    rw [ht]
    show Event.logStats "A" 2 1 (percentSmaller 2 1)
      ∈ (runPartitions flagsNone [] worldA [partA] 0 0).2
    rw [runPartitions_ok flagsNone [] worldA partA [] 0 0 (by decide) (by decide)]
    simp [worldA, partA]
  · have hw : wrapU64 ((1 : Int) - (2 : Nat)) = 18446744073709551615 := by decide
    unfold percentSmaller
    rw [hw]
    norm_num

/-- C1 (amended): after finalize the tool logs, per processed partition,
the tuple {partition_name, estimate, actual, percent} with
`percent = ((actual − estimate) mod 2 ^ 64) · 100 / actual` — the
subtraction is unsigned 64-bit — and one aggregate line over the
accumulated totals using the same formula.  When the estimate does not
exceed the actual the value equals `(actual − estimate) · 100 / actual`;
for a positive actual size the value is never negative, in particular
not when the estimate exceeds the actual. -/
theorem c1_percent_smaller_amended (flags : Flags) (filter : List String) (w : World)
    (p : PartitionUpdate) (rest : List PartitionUpdate) (est act : Nat)
    (hsel : selected filter p)
    (hok : (ProcessPartition flags w.imagesDir w.manifest p
        (w.partEnv p.partition_name)).1 = true) :
    (Event.logStats p.partition_name p.estimate_cow_size
        (w.cowFileSize (w.imagesDir ++ "/" ++ p.partition_name ++ ".cow"))
        (percentSmaller p.estimate_cow_size
          (w.cowFileSize (w.imagesDir ++ "/" ++ p.partition_name ++ ".cow")))
      ∈ (runPartitions flags filter w (p :: rest) est act).2) ∧
    (∀ (e : Nat) (a : Int), 0 < a → 0 ≤ percentSmaller e a) ∧
    (∀ (e : Nat) (a : Int), e < 2 ^ 64 → (e : Int) ≤ a → a < 2 ^ 64 →
      percentSmaller e a = (((a : ℚ) - (e : Nat)) * 100) / (a : ℚ)) ∧
    (∀ (estT actT : Nat), runPartitions flags filter w [] estT actT =
      (0, [Event.logTotal estT actT (percentSmaller estT (actT : Int))])) := by
  refine ⟨?_, percentSmaller_nonneg, percentSmaller_no_wrap, fun estT actT => rfl⟩
  rw [runPartitions_ok flags filter w p rest est act hsel hok]
  simp

/-- C1 witness: the amended statement instantiated at `worldA`. -/
theorem c1_percent_smaller_amended_witness :
    (Event.logStats "A" 2 1 (percentSmaller 2 1)
      ∈ (runPartitions flagsNone [] worldA [partA] 0 0).2) ∧
    0 ≤ percentSmaller 2 1 := by
  have h := c1_percent_smaller_amended flagsNone [] worldA partA [] 0 0
    (by decide) (by decide)
  exact ⟨h.1, h.2.1 2 1 (by decide)⟩

/-- C2 (code bug): the claim — and the source's own exit-code scheme —
say a failed `mmap` is detected and the tool exits 3 with no partition
work.  But `mmap` signals failure by returning `MAP_FAILED`
(`(void*)-1`), never a null pointer, while line 149 checks
`payload == nullptr`.  So when `mmap` fails the check is false, the
tool does not exit 3, and execution flows into payload-header parsing
on the invalid mapping: here, with the header parse failing on it, the
run returns exit code 4 instead of 3. -/
theorem c2_mmap_failure_code_bug (flags : Flags) (w : World)
    (h1 : w.argc = 3) (h2 : 0 ≤ w.payloadFd) (h3 : 0 < w.payloadSize)
    (h4 : w.mmapAddr = MAP_FAILED) (h5 : w.headerParseOk = false) :
    CowConverter.main flags w ≠ (3, []) ∧
    CowConverter.main flags w = (4, []) := by
  have hne : w.mmapAddr ≠ 0 := by rw [h4]; decide
  have hmain : CowConverter.main flags w = (4, []) := by
    simp only [main, if_neg (by simp [h1] : ¬ w.argc ≠ 3),
      if_neg (not_lt.mpr h2), if_neg (not_le.mpr h3), if_neg hne, if_pos h5]
  refine ⟨?_, hmain⟩
  rw [hmain]
  decide

/-- C2 witness: in `worldMmapFail` (`mmap` returns `MAP_FAILED`, the
subsequent header parse fails) the tool exits 4, not 3. -/
theorem c2_mmap_failure_code_bug_witness :
    CowConverter.main flagsNone worldMmapFail ≠ (3, []) ∧
    CowConverter.main flagsNone worldMmapFail = (4, []) :=
  c2_mmap_failure_code_bug flagsNone worldMmapFail rfl (by decide) (by decide) (by decide) rfl

/-- C3: a partition with `estimate_cow_size == 0` is skipped before any
per-partition setup: the run on `p :: rest` equals the run on `rest`
with unchanged totals, so no target image is opened, no `.cow` file is
created, no log line is emitted, and nothing is added to the totals. -/
theorem c3_zero_estimate_skipped (flags : Flags) (filter : List String) (w : World)
    (p : PartitionUpdate) (rest : List PartitionUpdate) (est act : Nat)
    (h : p.estimate_cow_size = 0) :
    runPartitions flags filter w (p :: rest) est act =
      runPartitions flags filter w rest est act :=
  runPartitions_skip_zero flags filter w p rest est act h

/-- C3 witness: the zero-estimate partition of `worldZero` is skipped. -/
theorem c3_zero_estimate_skipped_witness :
    runPartitions flagsNone [] worldZero [partZero] 0 0 =
      runPartitions flagsNone [] worldZero [] 0 0 :=
  c3_zero_estimate_skipped flagsNone [] worldZero partZero [] 0 0 rfl

/-- C4 counterexample: the claim says that with a non-empty name set
exactly the partitions whose names are in the set are processed.  With
`--partitions=A` and a manifest whose only partition `A` has
`estimate_cow_size == 0`, the name `A` is in the parsed set yet `A` is
not processed (no per-partition name log line appears): the
zero-estimate skip overrides the filter. -/
theorem c4_filter_counterexample :
    tokenize "A" = ["A"] ∧
    processedNames (CowConverter.main flagsA worldZero).2 = [] := by
  refine ⟨by decide, ?_⟩
  rw [main_unfold_ok flagsA worldZero rfl (by decide) (by decide) (by decide) rfl rfl]
  rw [runPartitions_all_skipped flagsA (tokenize flagsA.partitions) worldZero
    worldZero.manifest.partitions (by decide) 0 0]
  simp [processedNames, nameOfEvent]

/-- C4 (amended): provided every selected partition's processing
succeeds, the partitions processed (in manifest order) are exactly
those with a nonzero `estimate_cow_size` that additionally pass the
name filter: all of them when the parsed name set is empty, and those
whose names are in the set otherwise. -/
theorem c4_filter_amended (flags : Flags) (w : World)
    (h1 : w.argc = 3) (h2 : 0 ≤ w.payloadFd) (h3 : 0 < w.payloadSize)
    (h4 : w.mmapAddr ≠ 0) (h5 : w.headerParseOk = true) (h6 : w.manifestParseOk = true)
    (hsucc : ∀ p ∈ w.manifest.partitions, selected (tokenize flags.partitions) p →
      (ProcessPartition flags w.imagesDir w.manifest p (w.partEnv p.partition_name)).1
        = true) :
    processedNames (CowConverter.main flags w).2 =
      (w.manifest.partitions.filter
        (fun p => decide (selected (tokenize flags.partitions) p))).map
        (fun p => p.partition_name) := by
  rw [main_unfold_ok flags w h1 h2 h3 h4 h5 h6]
  exact processedNames_runPartitions flags (tokenize flags.partitions) w
    w.manifest.partitions hsucc 0 0

/-- C4 witness: the amended statement instantiated at `worldA` with an
empty name set; the single partition `A` is processed. -/
theorem c4_filter_amended_witness :
    processedNames (CowConverter.main flagsNone worldA).2 =
      (worldA.manifest.partitions.filter
        (fun p => decide (selected (tokenize flagsNone.partitions) p))).map
        (fun p => p.partition_name) :=
  c4_filter_amended flagsNone worldA rfl (by decide) (by decide) (by decide) rfl rfl (by decide)

/-- C5 counterexample: the claim says `op_count_max` equals
`new_partition_size / block_size`.  For `partBig` that quotient is
`2 ^ 32`, but the `static_cast<uint32_t>` truncates it to 0, and the
writer factory receives options with `op_count_max = 0`. -/
theorem c5_op_count_max_counterexample :
    Event.createWriter 2
        { block_size := 4096, compression := "gz", batch_write := true, op_count_max := 0 }
      ∈ (ProcessPartition flagsNone "d" manifestBig partBig envOk).2 ∧
    partBig.new_partition_info.size / manifestBig.block_size = 2 ^ 32 ∧
    (2 ^ 32 : Nat) ≠ 0 := by decide

/-- C5 (amended): for every partition that reaches the writer factory,
the factory receives options with `block_size` equal to the manifest's
block size, `compression` equal to the CLI parameter when non-empty and
the manifest's dynamic-partition value otherwise, `batch_write = true`,
and `op_count_max` equal to `new_partition_size / block_size` truncated
to `uint32` (i.e. reduced modulo `2 ^ 32`); the version is the CLI value
(when positive) and the manifest's dynamic-partition COW version
otherwise, and in the CLI case a log line records the user-specified
version. -/
theorem c5_cow_options_amended (flags : Flags) (image_dir : String)
    (manifest : DeltaArchiveManifest) (p : PartitionUpdate) (env : PartitionEnv)
    (h1 : env.targetImgOpenOk = true) (h2 : env.outputOpenOk = true) :
    Event.createWriter
        (if 0 < flags.cow_version then flags.cow_version.toNat
          else manifest.dynamic_partition_metadata.cow_version)
        { block_size := manifest.block_size
          compression := if flags.vabc_compression_param ≠ "" then
              flags.vabc_compression_param
            else manifest.dynamic_partition_metadata.vabc_compression_param
          batch_write := true
          op_count_max := wrapU32 (p.new_partition_info.size / manifest.block_size) }
      ∈ (ProcessPartition flags image_dir manifest p env).2 ∧
    (0 < flags.cow_version →
      Event.logUserCowVersion flags.cow_version.toNat
        ∈ (ProcessPartition flags image_dir manifest p env).2) := by
  obtain ⟨t, o, cw, dr, fz⟩ := env
  cases t
  · exact absurd h1 (by simp)
  cases o
  · exact absurd h2 (by simp)
  by_cases hv : 0 < flags.cow_version <;>
    by_cases hc : flags.vabc_compression_param ≠ "" <;>
    cases cw <;> cases dr <;> cases fz <;>
    simp [ProcessPartition, hv, hc]

/-- C5 witness: with `--cow_version=3 --vabc_compression_param=zstd`
over `manifestA`, the writer factory receives version 3, compression
`zstd`, `batch_write = true`, `op_count_max = 1`, and the
user-specified-version log line appears. -/
theorem c5_cow_options_amended_witness :
    Event.createWriter 3
        { block_size := 4096, compression := "zstd", batch_write := true
          op_count_max := 1 }
      ∈ (ProcessPartition flagsV3 "d" manifestA partA envOk).2 ∧
    Event.logUserCowVersion 3 ∈ (ProcessPartition flagsV3 "d" manifestA partA envOk).2 := by
  have h := c5_cow_options_amended flagsV3 "d" manifestA partA envOk rfl rfl
  exact ⟨h.1, h.2 (by decide)⟩

/-- C6: the exit-code ladder of `main`: -1 when the argument count
(after flag parsing) is not 3; 1 when opening the payload fails; 2 when
the payload size is not positive; 4 when header parsing fails; 5 when
manifest parsing fails; 0 when every selected partition processes
successfully.  Each failing phase returns immediately with an empty
trace, so no later phase runs. -/
theorem c6_exit_codes (flags : Flags) (w : World) :
    (w.argc ≠ 3 → CowConverter.main flags w = (-1, [])) ∧
    (w.argc = 3 → w.payloadFd < 0 → CowConverter.main flags w = (1, [])) ∧
    (w.argc = 3 → 0 ≤ w.payloadFd → w.payloadSize ≤ 0 →
      CowConverter.main flags w = (2, [])) ∧
    (w.argc = 3 → 0 ≤ w.payloadFd → 0 < w.payloadSize → w.mmapAddr ≠ 0 →
      w.headerParseOk = false → CowConverter.main flags w = (4, [])) ∧
    (w.argc = 3 → 0 ≤ w.payloadFd → 0 < w.payloadSize → w.mmapAddr ≠ 0 →
      w.headerParseOk = true → w.manifestParseOk = false →
      CowConverter.main flags w = (5, [])) ∧
    (w.argc = 3 → 0 ≤ w.payloadFd → 0 < w.payloadSize → w.mmapAddr ≠ 0 →
      w.headerParseOk = true → w.manifestParseOk = true →
      (∀ p ∈ w.manifest.partitions, selected (tokenize flags.partitions) p →
        (ProcessPartition flags w.imagesDir w.manifest p (w.partEnv p.partition_name)).1
          = true) →
      (CowConverter.main flags w).1 = 0) := by
  refine ⟨?_, ?_, ?_, ?_, ?_, ?_⟩
  · intro h; simp only [main, if_pos h]
  · intro h1 hf
    simp only [main, if_neg (by simp [h1] : ¬ w.argc ≠ 3), if_pos hf]
  · intro h1 h2 hs
    simp only [main, if_neg (by simp [h1] : ¬ w.argc ≠ 3), if_neg (not_lt.mpr h2),
      if_pos hs]
  · intro h1 h2 h3 h4 h5
    simp only [main, if_neg (by simp [h1] : ¬ w.argc ≠ 3), if_neg (not_lt.mpr h2),
      if_neg (not_le.mpr h3), if_neg h4, if_pos h5]
  · intro h1 h2 h3 h4 h5 h6
    simp only [main, if_neg (by simp [h1] : ¬ w.argc ≠ 3), if_neg (not_lt.mpr h2),
      if_neg (not_le.mpr h3), if_neg h4,
      if_neg (by simp [h5] : ¬ w.headerParseOk = false), if_pos h6]
  · intro h1 h2 h3 h4 h5 h6 hsucc
    rw [main_unfold_ok flags w h1 h2 h3 h4 h5 h6]
    exact runPartitions_allOk flags (tokenize flags.partitions) w
      w.manifest.partitions hsucc 0 0

/-- C6 witness: each rung of the ladder instantiated at a concrete
world obtained from `worldA` by failing exactly one phase. -/
theorem c6_exit_codes_witness :
    CowConverter.main flagsNone worldArgc2 = (-1, []) ∧
    CowConverter.main flagsNone worldNoFd = (1, []) ∧
    CowConverter.main flagsNone worldEmpty = (2, []) ∧
    CowConverter.main flagsNone worldNoHeader = (4, []) ∧
    CowConverter.main flagsNone worldNoManifest = (5, []) ∧
    (CowConverter.main flagsNone worldA).1 = 0 :=
  ⟨(c6_exit_codes flagsNone worldArgc2).1 (by decide),
   (c6_exit_codes flagsNone worldNoFd).2.1 rfl (by decide),
   (c6_exit_codes flagsNone worldEmpty).2.2.1 rfl (by decide) (by decide),
   (c6_exit_codes flagsNone worldNoHeader).2.2.2.1 rfl (by decide) (by decide) (by decide) rfl,
   (c6_exit_codes flagsNone worldNoManifest).2.2.2.2.1 rfl (by decide) (by decide)
     (by decide) rfl rfl,
   (c6_exit_codes flagsNone worldA).2.2.2.2.2 rfl (by decide) (by decide) (by decide) rfl rfl
     (by decide)⟩

/-- C7: when `ProcessPartition` fails on a selected partition (any of
its five stages: target-image open, output open, writer construction,
dry run, finalize), the batch stops with exit code 6: the run equals a
pair whose trace mentions only that partition (nothing from `rest` is
processed, no totals are consumed), and no trace of this run nor of any
run of `main` ever contains a file-deletion event, so the
partially-written `.cow` output is not removed. -/
theorem c7_partition_failure (flags : Flags) (filter : List String) (w : World)
    (p : PartitionUpdate) (rest : List PartitionUpdate) (est act : Nat)
    (hsel : selected filter p)
    (hfail : (ProcessPartition flags w.imagesDir w.manifest p
        (w.partEnv p.partition_name)).1 = false) :
    runPartitions flags filter w (p :: rest) est act =
      (6, Event.logPartitionName p.partition_name ::
        (ProcessPartition flags w.imagesDir w.manifest p
          (w.partEnv p.partition_name)).2) ∧
    (∀ path, Event.deleteFile path ∉ (runPartitions flags filter w (p :: rest) est act).2) ∧
    (∀ path, Event.deleteFile path ∉ (CowConverter.main flags w).2) :=
  ⟨runPartitions_fail flags filter w p rest est act hsel hfail,
   fun path => runPartitions_no_deleteFile flags filter w (p :: rest) est act path,
   fun path => main_no_deleteFile flags w path⟩

/-- C7 witness: in `worldNoTarget` the target image of `A` is missing;
the batch stops at `A` with code 6 and the trace holds only `A`'s name
line and the failed open. -/
theorem c7_partition_failure_witness :
    runPartitions flagsNone [] worldNoTarget [partA] 0 0 =
      (6, [Event.logPartitionName "A", Event.openTarget ("d" ++ "/" ++ "A" ++ ".img") O_RDONLY]) ∧
    Event.deleteFile ("d" ++ "/" ++ "A" ++ ".cow")
      ∉ (runPartitions flagsNone [] worldNoTarget [partA] 0 0).2 := by
  have h := c7_partition_failure flagsNone [] worldNoTarget partA [] 0 0
    (by decide) (by decide)
  refine ⟨?_, h.2.1 ("d" ++ "/" ++ "A" ++ ".cow")⟩
  rw [h.1]
  decide

/-- C8: for a partition named `N` and image directory `D`, processing
first opens the target image `D/N.img` read-only — and fails the
partition when that open fails — and, once the target open succeeds,
creates the output COW file at `D/N.cow` with flags
`O_RDWR | O_CREAT` and permissions `0744`. -/
theorem c8_paths_and_modes (flags : Flags) (image_dir : String)
    (manifest : DeltaArchiveManifest) (p : PartitionUpdate) (env : PartitionEnv) :
    (ProcessPartition flags image_dir manifest p env).2.head? =
      some (Event.openTarget (image_dir ++ "/" ++ p.partition_name ++ ".img") O_RDONLY) ∧
    (env.targetImgOpenOk = false →
      (ProcessPartition flags image_dir manifest p env).1 = false) ∧
    (env.targetImgOpenOk = true →
      Event.openOutput (image_dir ++ "/" ++ p.partition_name ++ ".cow")
        (O_RDWR ||| O_CREAT) 0o744 ∈ (ProcessPartition flags image_dir manifest p env).2) := by
  obtain ⟨t, o, cw, dr, fz⟩ := env
  by_cases hv : 0 < flags.cow_version <;>
    cases t <;> cases o <;> cases cw <;> cases dr <;> cases fz <;>
    simp [ProcessPartition, hv]

/-- C8 witness: the path/mode facts instantiated at partition `A` of
`manifestA` in directory `d`. -/
theorem c8_paths_and_modes_witness :
    (ProcessPartition flagsNone "d" manifestA partA envOk).2.head? =
      some (Event.openTarget ("d" ++ "/" ++ "A" ++ ".img") O_RDONLY) ∧
    Event.openOutput ("d" ++ "/" ++ "A" ++ ".cow") (O_RDWR ||| O_CREAT) 0o744
      ∈ (ProcessPartition flagsNone "d" manifestA partA envOk).2 := by
  have h := c8_paths_and_modes flagsNone "d" manifestA partA envOk
  exact ⟨h.1, h.2.2 rfl⟩

/-- C9: the zero-estimate skip is evaluated before the name filter: a
partition with `estimate_cow_size == 0` is skipped — the run equals the
run on the remaining partitions, so it produces no events and no totals
contribution — even when its name is in the `--partitions` set. -/
theorem c9_skip_precedes_filter (flags : Flags) (filter : List String) (w : World)
    (p : PartitionUpdate) (rest : List PartitionUpdate) (est act : Nat)
    (h : p.estimate_cow_size = 0) (hmem : p.partition_name ∈ filter) :
    runPartitions flags filter w (p :: rest) est act =
      runPartitions flags filter w rest est act :=
  runPartitions_skip_zero flags filter w p rest est act h

/-- C9 witness: with the filter set `{A}` explicitly naming it, the
zero-estimate partition `A` is still skipped. -/
theorem c9_skip_precedes_filter_witness :
    runPartitions flagsA ["A"] worldZero [partZero] 0 0 =
      runPartitions flagsA ["A"] worldZero [] 0 0 :=
  c9_skip_precedes_filter flagsA ["A"] worldZero partZero [] 0 0 rfl (by decide)

/-- C10: after all front-end phases succeed, the aggregate totals line
is emitted exactly when the run exits 0 (no selected partition fails);
a non-zero exit is exactly code 6 and its trace carries no aggregate
line; and when the filter and skips select no partition at all, the run
is exit 0 with precisely the aggregate line over totals 0 and 0. -/
theorem c10_aggregate_line (flags : Flags) (w : World)
    (h1 : w.argc = 3) (h2 : 0 ≤ w.payloadFd) (h3 : 0 < w.payloadSize)
    (h4 : w.mmapAddr ≠ 0) (h5 : w.headerParseOk = true) (h6 : w.manifestParseOk = true) :
    ((CowConverter.main flags w).1 = 0 ↔
      ∃ e a q, Event.logTotal e a q ∈ (CowConverter.main flags w).2) ∧
    ((CowConverter.main flags w).1 ≠ 0 → (CowConverter.main flags w).1 = 6) ∧
    ((∀ p ∈ w.manifest.partitions, ¬ selected (tokenize flags.partitions) p) →
      CowConverter.main flags w =
        (0, [Event.logTotal 0 0 (percentSmaller 0 ((0 : Nat) : Int))])) := by
  rw [main_unfold_ok flags w h1 h2 h3 h4 h5 h6]
  refine ⟨runPartitions_logTotal_iff flags (tokenize flags.partitions) w
    w.manifest.partitions 0 0, ?_, ?_⟩
  · intro hne
    rcases runPartitions_code_cases flags (tokenize flags.partitions) w
      w.manifest.partitions 0 0 with h | h
    · exact absurd h hne
    · exact h
  · intro hall
    exact runPartitions_all_skipped flags (tokenize flags.partitions) w
      w.manifest.partitions hall 0 0

/-- C10 witness: in `worldA` the exit is 0 and the aggregate line is
present; in `worldZero` (whose only partition is skipped, with `A`
even named by the filter) the run is exit 0 with the aggregate line
over totals 0 and 0. -/
theorem c10_aggregate_line_witness :
    (∃ e a q, Event.logTotal e a q ∈ (CowConverter.main flagsNone worldA).2) ∧
    CowConverter.main flagsA worldZero =
      (0, [Event.logTotal 0 0 (percentSmaller 0 ((0 : Nat) : Int))]) := by
  have hA := c10_aggregate_line flagsNone worldA rfl (by decide) (by decide) (by decide) rfl rfl
  have hZ := c10_aggregate_line flagsA worldZero rfl (by decide) (by decide) (by decide) rfl rfl
  exact ⟨hA.1.mp (by decide), hZ.2.2 (by decide)⟩

end CowConverter
